import Mathlib

/-!
# Verification of the procurement-contract scraper core

Shallow embedding of the Go sources of the
`Scraper-Plataforma-Contratacion-Publica` repository:

* `internal/scraper/scraper.go` — the extraction engine
  (`parseContractIDAndDescription`, `ExtractContractsFromTable`,
  `ExtractAllContractsFromTable`, `ExtractDocumentLinks`,
  `EnhanceContractsWithDocumentLinks`);
* `internal/storage` — the change detector / storage layer
  (`SaveContracts`, `CheckAndUpdateStatusChanges`, `GetNewContracts`,
  `GetContractByID`, `contractExists`).

Strings are modelled as Lean `String`/`List Char`; the Go byte-level
operations (`len`, byte slicing) are reproduced through explicit UTF-8
byte sizes.  The SQLite tables are modelled as in-memory lists; the
transaction contract of `database/sql` (writes become visible only on
`Commit`, `Rollback` discards the transaction) is modelled as an
external-collaborator contract.  The non-ASCII string literals of
`scraper.go` carry a damaged double encoding in the repository itself
(every intended `ó` stands as the two characters `√≥`, so the file
compares against `"Evaluaci√≥n Previa"`, `"√≥rgano"`, `"Contrataci√≥n"`,
…, while sibling files are clean UTF-8); the embedding reproduces those
literals exactly as the source compares them.
-/

/-! ## Go string primitives -/

/-! ## The anchored identifier regular expressions

Each of the ten anchored patterns of `parseContractIDAndDescription` is
embedded as a prefix matcher returning the unconsumed suffix.  Greedy
quantifiers with backtracking (`\d{4,5}`, `[A-Z]+`) are reproduced by
trying the longer alternative first. -/

/-! ## The contract record and table extraction -/

/-! ## The storage layer (`internal/storage`)

The SQLite `contracts` table (primary key `id`) is modelled as a list of
contract records, the append-only `status_changes` table as a list of
rows.  The surrogate key and the `changed_at` timestamp of a status
change are omitted (the claims exclude timestamps). -/

/-! ## Document links (`ExtractDocumentLinks`,
`EnhanceContractsWithDocumentLinks`)

A detail page is modelled by the sequence of its `a.celdaTam2` link
elements in document order, as the goquery selection yields them: the
optional `href` attribute, whether `Closest("tr")` finds a row, and the
text of that row's `td.tipoDocumento` cell when present. -/

namespace Scraper

/-- Go `unicode.IsSpace`: the white-space code points recognised by
`strings.TrimSpace`. -/
def goIsSpace (c : Char) : Bool :=
  c = ' ' || c = '\t' || c = '\n' || c.toNat = 0x0b || c.toNat = 0x0c || c = '\r' ||
  c.toNat = 0x85 || c.toNat = 0xA0 || c.toNat = 0x1680 ||
  (0x2000 ≤ c.toNat && c.toNat ≤ 0x200A) ||
  c.toNat = 0x2028 || c.toNat = 0x2029 || c.toNat = 0x202F ||
  c.toNat = 0x205F || c.toNat = 0x3000

/-- Go `strings.TrimSpace` on a character list. -/
def goTrimSpaceList (l : List Char) : List Char :=
  ((l.dropWhile goIsSpace).reverse.dropWhile goIsSpace).reverse

/-- Go `strings.TrimSpace`. -/
def goTrimSpace (s : String) : String :=
  ⟨goTrimSpaceList s.data⟩

/-- Go `len` of a string: its UTF-8 byte length. -/
def byteLen (l : List Char) : Nat :=
  (l.map Char.utf8Size).sum

/-- Go `strings.ToLower`, restricted to the ASCII and Latin-1 letters that
occur in the vocabularies of this program (full Unicode folding is not
needed for any literal the code compares against). -/
def goToLowerChar (c : Char) : Char :=
  if 'A' ≤ c && c ≤ 'Z' then Char.ofNat (c.toNat + 32)
  else if 0xC0 ≤ c.toNat && c.toNat ≤ 0xDE && c.toNat ≠ 0xD7 then Char.ofNat (c.toNat + 32)
  else c

/-- Go `strings.ToLower` on a character list. -/
def goToLower (l : List Char) : List Char :=
  l.map goToLowerChar

/-- Go `strings.EqualFold`, via the lower-casing above (adequate for the
ASCII/Latin-1 status vocabulary compared by the code). -/
def goEqualFold (s t : String) : Bool :=
  goToLower s.data == goToLower t.data

/-- Go `strings.Contains (hay, needle)` on character lists. -/
def containsList (needle : List Char) (hay : List Char) : Bool :=
  needle.isPrefixOf hay ||
    match hay with
    | [] => false
    | _ :: t => containsList needle t

/-- First character position at which `needle` occurs in `hay`
(`strings.Index`; the Go byte index is positive iff this character
index is positive, which is the only use the code makes of it). -/
def findSubIdx (needle : List Char) : List Char → Option Nat
  | [] => if needle.isEmpty then some 0 else none
  | c :: t =>
    if needle.isPrefixOf (c :: t) then some 0
    else (findSubIdx needle t).map (· + 1)

/-- Go ASCII digit test (`\d` in `regexp`, and `ContainsAny "0123456789"`). -/
def isDigitA (c : Char) : Bool := '0' ≤ c && c ≤ '9'

/-- ASCII upper-case test (`[A-Z]`). -/
def isUpperA (c : Char) : Bool := 'A' ≤ c && c ≤ 'Z'

/-- ASCII lower-case test (`[a-z]`). -/
def isLowerA (c : Char) : Bool := 'a' ≤ c && c ≤ 'z'

/-- Keep the characters that fit in the first `n` UTF-8 bytes
(Go byte slice `s[:n]`; `n` always falls on a character boundary for the
inputs this program slices). -/
def takeBytes : Nat → List Char → List Char
  | _, [] => []
  | n, c :: l => if c.utf8Size ≤ n then c :: takeBytes (n - c.utf8Size) l else []

/-- Drop the characters that fit in the first `n` UTF-8 bytes
(Go byte slice `s[n:]`). -/
def dropBytes : Nat → List Char → List Char
  | _, [] => []
  | n, c :: l => if c.utf8Size ≤ n then dropBytes (n - c.utf8Size) l else c :: l

/-- Match exactly `n` characters satisfying `p`. -/
def matchCount (p : Char → Bool) : Nat → List Char → Option (List Char)
  | 0, l => some l
  | _ + 1, [] => none
  | n + 1, c :: l => if p c then matchCount p n l else none

/-- Match one literal character. -/
def matchChar (a : Char) : List Char → Option (List Char)
  | [] => none
  | c :: l => if c = a then some l else none

/-- Match a literal character sequence. -/
def matchLit : List Char → List Char → Option (List Char)
  | [], l => some l
  | a :: as, l => (matchChar a l).bind (matchLit as)

/-- Greedy `p+` followed by continuation `k`, with backtracking:
the longest repetition that lets `k` succeed wins (Go `regexp`
leftmost-first semantics for a greedy quantifier). -/
def plusThen (p : Char → Bool) (k : List Char → Option (List Char)) :
    List Char → Option (List Char)
  | [] => none
  | c :: l =>
    if p c then
      match plusThen p k l with
      | some r => some r
      | none => k l
    else none

/-- Pattern `^(\d{4,5}/\d{4})` — e.g. `10892/2024`. -/
def pat1 (l : List Char) : Option (List Char) :=
  match (matchCount isDigitA 5 l).bind (matchChar '/') |>.bind (matchCount isDigitA 4) with
  | some r => some r
  | none => (matchCount isDigitA 4 l).bind (matchChar '/') |>.bind (matchCount isDigitA 4)

/-- Pattern `^(S-\d{5}-\d{4})` — e.g. `S-02968-2025`. -/
def pat2 (l : List Char) : Option (List Char) :=
  (matchChar 'S' l).bind (matchChar '-') |>.bind (matchCount isDigitA 5)
    |>.bind (matchChar '-') |>.bind (matchCount isDigitA 4)

/-- Pattern `^(\d{4}/\d{2})` — e.g. `2024/25`. -/
def pat3 (l : List Char) : Option (List Char) :=
  (matchCount isDigitA 4 l).bind (matchChar '/') |>.bind (matchCount isDigitA 2)

/-- Match one character of a class. -/
def matchOne (p : Char → Bool) : List Char → Option (List Char)
  | [] => none
  | c :: l => if p c then some l else none

/-- Pattern `^([A-Z]-\d{5}-\d{4})` — e.g. `A-12345-2024`. -/
def pat4 (l : List Char) : Option (List Char) :=
  (matchOne isUpperA l).bind (matchChar '-') |>.bind (matchCount isDigitA 5)
    |>.bind (matchChar '-') |>.bind (matchCount isDigitA 4)

/-- Pattern `^(\d{4}-\d{2})` — e.g. `2024-25`. -/
def pat5 (l : List Char) : Option (List Char) :=
  (matchCount isDigitA 4 l).bind (matchChar '-') |>.bind (matchCount isDigitA 2)

/-- Pattern `^(\d{4}/[A-Z]+/\d{3}-\d{3}/\d{6})` — e.g. `2025/D61000/006-201/00001`. -/
def pat6 (l : List Char) : Option (List Char) :=
  (matchCount isDigitA 4 l).bind (matchChar '/') |>.bind
    (plusThen isUpperA fun r =>
      (matchChar '/' r).bind (matchCount isDigitA 3) |>.bind (matchChar '-')
        |>.bind (matchCount isDigitA 3) |>.bind (matchChar '/')
        |>.bind (matchCount isDigitA 6))

/-- Pattern `^([A-Z]+ CH SU-\d{2}-\d{2})` — e.g. `NGEU CH SU-02-25`. -/
def pat7 (l : List Char) : Option (List Char) :=
  plusThen isUpperA
    (fun r =>
      (matchLit (" CH SU-".data) r).bind (matchCount isDigitA 2)
        |>.bind (matchChar '-') |>.bind (matchCount isDigitA 2)) l

/-- Pattern `^(\d{2}/\d{2})` — e.g. `13/25`. -/
def pat8 (l : List Char) : Option (List Char) :=
  (matchCount isDigitA 2 l).bind (matchChar '/') |>.bind (matchCount isDigitA 2)

/-- Pattern `^(\d{2}/\d{2}\.-[A-Z]+)` — e.g. `13/25.-S…`. -/
def pat9 (l : List Char) : Option (List Char) :=
  (matchCount isDigitA 2 l).bind (matchChar '/') |>.bind (matchCount isDigitA 2)
    |>.bind (matchChar '.') |>.bind (matchChar '-')
    |>.bind (plusThen isUpperA some)

/-- Pattern `^([A-Z]+\d{2}-\d{3}/\d{4})` — e.g. `4AS25-815/2025`. -/
def pat10 (l : List Char) : Option (List Char) :=
  plusThen isUpperA
    (fun r =>
      (matchCount isDigitA 2 r).bind (matchChar '-') |>.bind (matchCount isDigitA 3)
        |>.bind (matchChar '/') |>.bind (matchCount isDigitA 4)) l

/-- The ten identifier patterns, in the declared priority order. -/
def patterns : List (List Char → Option (List Char)) :=
  [pat1, pat2, pat3, pat4, pat5, pat6, pat7, pat8, pat9, pat10]

/-- Try the patterns in order; the first success wins
(the `for _, pattern := range patterns` loop). -/
def firstMatch : List (List Char → Option (List Char)) → List Char → Option (List Char)
  | [], _ => none
  | p :: ps, t =>
    match p t with
    | some r => some r
    | none => firstMatch ps t

/-- The fixed vocabulary of Spanish description-opening words. -/
def descriptionStarters : List String :=
  ["Suministro", "Adquisici√≥n", "Contrataci√≥n", "Servicios", "Instalaci√≥n",
   "Alquiler", "Compra", "Adjudicaci√≥n", "Ejecuci√≥n", "Desarrollo",
   "Implementaci√≥n", "Mantenimiento", "Reparaci√≥n", "Renovaci√≥n",
   "Ampliaci√≥n", "Mejora", "Modernizaci√≥n", "Equipamiento", "Dotaci√≥n"]

/-- Second stage of the cascade: split at the first occurrence of a
description-starter word, validating the candidate identifier
(`len > 0`, byte length `≤ 50`, contains a digit, `/` or `-`). -/
def starterSplit (t : List Char) : Option (List Char × List Char) :=
  descriptionStarters.findSome? fun st =>
    match findSubIdx st.data t with
    | some i =>
      if 0 < i then
        let pid := goTrimSpaceList (t.take i)
        let pdesc := goTrimSpaceList (t.drop i)
        if 0 < pid.length && byteLen pid ≤ 50 &&
            (pid.any isDigitA || pid.contains '/' || pid.contains '-') then
          some (pid, pdesc)
        else none
      else none
    | none => none

/-- A previous byte that is not an ASCII letter or digit (the final byte
of a multi-byte character always qualifies, as does the character
itself under this test). -/
def prevOk (c : Char) : Bool :=
  !(isUpperA c || isLowerA c || isDigitA c)

/-- Third stage: scan (from position 1) for the first ASCII capital
letter preceded by a non-alphanumeric byte whose trimmed prefix is a
valid identifier (`0 < len ≤ 50` bytes); returns the split position. -/
def capitalScanAux (t : List Char) : Char → List Char → Nat → Option Nat
  | _, [], _ => none
  | prev, c :: rs, j =>
    if isUpperA c && prevOk prev then
      let pid := goTrimSpaceList (t.take j)
      if 0 < pid.length && byteLen pid ≤ 50 then some j
      else capitalScanAux t c rs (j + 1)
    else capitalScanAux t c rs (j + 1)

/-- Third stage of the cascade as a splitter. -/
def capitalSplit (t : List Char) : Option (List Char × List Char) :=
  match t with
  | [] => none
  | c0 :: rest =>
    (capitalScanAux t c0 rest 1).map fun j =>
      (goTrimSpaceList (t.take j), goTrimSpaceList (t.drop j))

/-- Last resort: a fixed 30-byte prefix boundary (no trimming). -/
def fallback30 (t : List Char) : List Char × List Char :=
  if 30 < byteLen t then (takeBytes 30 t, dropBytes 30 t) else (t, [])

/-- Go `parseContractIDAndDescription`: the four-stage priority cascade
separating a raw first-column cell into contract identifier and
description. -/
def parseContractIDAndDescription (fullText : String) : String × String :=
  let t := goTrimSpaceList fullText.data
  match firstMatch patterns t with
  | some rest =>
    let n := t.length - rest.length
    (⟨t.take n⟩, ⟨goTrimSpaceList (t.drop n)⟩)
  | none =>
    match starterSplit t with
    | some (pid, pdesc) => (⟨pid⟩, ⟨pdesc⟩)
    | none =>
      match capitalSplit t with
      | some (pid, pdesc) => (⟨pid⟩, ⟨pdesc⟩)
      | none =>
        let s := fallback30 t
        (⟨s.1⟩, ⟨s.2⟩)

/-- A contract record (`scraper.Contract`).  The `ScrapedAt` capture
timestamp is omitted: every property compared here excludes capture
timestamps. -/
structure Contract where
  id : String
  description : String
  contractType : String
  status : String
  amount : String
  submissionDate : String
  contractingBody : String
  link : String
  pliegoLink : String
  anuncioLink : String
deriving DecidableEq

/-- The header-row test run at row index 0: some cell, lower-cased and
trimmed, contains one of the fixed header keywords. -/
def isHeaderRow (row : List String) : Bool :=
  row.any fun cell =>
    let lc : List Char := goToLower (goTrimSpace cell).data
    containsList "expediente".data lc || containsList "tipo".data lc ||
    containsList "estado".data lc || containsList "importe".data lc ||
    containsList "presentaci√≥n".data lc || containsList "√≥rgano".data lc

/-- Build a contract from a table row (the row is only used with at
least 6 cells, so the defaulted lookups read the actual cells). -/
def rowToContract (row : List String) : Contract :=
  let p := parseContractIDAndDescription (row.getD 0 "")
  { id := p.1, description := p.2,
    contractType := goTrimSpace (row.getD 1 ""),
    status := goTrimSpace (row.getD 2 ""),
    amount := goTrimSpace (row.getD 3 ""),
    submissionDate := goTrimSpace (row.getD 4 ""),
    contractingBody := goTrimSpace (row.getD 5 ""),
    link := "", pliegoLink := "", anuncioLink := "" }

/-- The status allow-list of the primary pass:
`strings.EqualFold(status, "Publicada") || strings.EqualFold(status, "Evaluaci√≥n Previa")` —
the second literal as it stands, double-encoded, in the source file. -/
def statusAllowed (st : String) : Bool :=
  goEqualFold st "Publicada" || goEqualFold st "Evaluaci√≥n Previa"

/-- One iteration of the `ExtractContractsFromTable` loop on an
(index, row) pair: skip a header at index 0, skip rows with fewer than
6 cells, keep only allow-listed statuses. -/
def rowFilteredResult (p : Nat × List String) : Option Contract :=
  if p.1 == 0 && isHeaderRow p.2 then none
  else if p.2.length < 6 then none
  else
    let c := rowToContract p.2
    if statusAllowed c.status then some c else none

/-- One iteration of the `ExtractAllContractsFromTable` loop: same
header and cell-count handling, no status filter. -/
def rowAllResult (p : Nat × List String) : Option Contract :=
  if p.1 == 0 && isHeaderRow p.2 then none
  else if p.2.length < 6 then none
  else some (rowToContract p.2)

/-- Go `ExtractContractsFromTable`: the filtered (actionable) extraction. -/
def ExtractContractsFromTable (td : List (List String)) : List Contract :=
  td.enum.filterMap rowFilteredResult

/-- Go `ExtractAllContractsFromTable`: the unfiltered extraction used for
status-change detection. -/
def ExtractAllContractsFromTable (td : List (List String)) : List Contract :=
  td.enum.filterMap rowAllResult

/-- One `status_changes` row: contract reference, old and new status. -/
structure StatusChangeRow where
  contractId : String
  oldStatus : String
  newStatus : String
deriving DecidableEq

/-- The persisted state: the `contracts` table and the `status_changes`
table. -/
structure StorageState where
  contracts : List Contract
  statusChanges : List StatusChangeRow
deriving DecidableEq

/-- Go `contractExists`: `SELECT COUNT(*) FROM contracts WHERE id = ?` is
positive. -/
def contractExists (st : StorageState) (cid : String) : Bool :=
  st.contracts.any fun c => c.id == cid

/-- Go `SELECT … FROM contracts WHERE id = ?` through `QueryRow`: the first
matching row, if any. -/
def findContract (st : StorageState) (cid : String) : Option Contract :=
  st.contracts.find? fun c => c.id == cid

/-- Go `INSERT OR REPLACE INTO contracts`: replace the row with the same
primary key, or append a new row. -/
def upsert (c : Contract) (l : List Contract) : List Contract :=
  if l.any (fun x => x.id == c.id) then
    l.map fun x => if x.id == c.id then c else x
  else l ++ [c]

/-- The `currentStatus` local of the save loop: `Scan` leaves it at its
zero value `""` when the status query returns `sql.ErrNoRows`. -/
def currentStatusOf (st : StorageState) (cid : String) : String :=
  match findContract st cid with
  | some ex => ex.status
  | none => ""

/-- One iteration of the `SaveContracts` loop.  The guard
`err != sql.ErrNoRows` in the Go source reads the error of the
preceding insert (always `nil` at that point), so the recorded
condition reduces to
`currentStatus != "" && currentStatus != contract.Status`. -/
def saveOne (st : StorageState) (c : Contract) : StorageState :=
  if currentStatusOf st c.id != "" && currentStatusOf st c.id != c.status then
    { contracts := upsert c st.contracts,
      statusChanges := st.statusChanges ++ [⟨c.id, currentStatusOf st c.id, c.status⟩] }
  else
    { contracts := upsert c st.contracts, statusChanges := st.statusChanges }

/-- Go `SaveContracts` along its failure-free path: the whole batch applied
in order inside one transaction. -/
def SaveContracts (st : StorageState) (batch : List Contract) : StorageState :=
  batch.foldl saveOne st

/-- Failure oracles for the fallible statements inside the
`SaveContracts` transaction (the driver errors are external
collaborators). -/
structure SaveFailures where
  failCheck : Contract → Bool
  failInsert : Contract → Bool
  failChange : Contract → Bool
  failCommit : Bool

/-- The `SaveContracts` loop run against a transaction state, stopping
at the first failing statement exactly where the Go code returns. -/
def saveContractsLoop (f : SaveFailures) : StorageState → List Contract → Except String StorageState
  | tx, [] => Except.ok tx
  | tx, c :: rest =>
    if f.failCheck c then
      Except.error ("failed to check current status for contract " ++ c.id)
    else if f.failInsert c then
      Except.error ("failed to insert contract " ++ c.id)
    else if currentStatusOf tx c.id != "" && currentStatusOf tx c.id != c.status then
      if f.failChange c then
        Except.error ("failed to record status change for contract " ++ c.id)
      else
        saveContractsLoop f
          { contracts := upsert c tx.contracts,
            statusChanges := tx.statusChanges ++ [⟨c.id, currentStatusOf tx c.id, c.status⟩] }
          rest
    else saveContractsLoop f { contracts := upsert c tx.contracts, statusChanges := tx.statusChanges } rest

/-- Go `SaveContracts` with its transaction wrapper: an empty batch returns
immediately; otherwise the loop runs against the transaction, a failure
triggers the deferred `Rollback` (the database keeps its prior state —
the transaction contract of `database/sql`/SQLite, an external
collaborator), and only `Commit` publishes the transaction state.
Returns the reported error (if any) and the database state visible
after the call. -/
def SaveContractsTx (f : SaveFailures) (db : StorageState) (batch : List Contract) :
    Except String Unit × StorageState :=
  if batch.isEmpty then (Except.ok (), db)
  else
    match saveContractsLoop f db batch with
    | Except.error e => (Except.error e, db)
    | Except.ok tx =>
      if f.failCommit then (Except.error "failed to commit transaction", db)
      else (Except.ok (), tx)

/-- The oracle under which no statement fails. -/
def noFailures : SaveFailures :=
  ⟨fun _ => false, fun _ => false, fun _ => false, false⟩

/-- One iteration of the `CheckAndUpdateStatusChanges` loop: skip
identifiers absent from storage; on a status difference, update the
stored status (`UPDATE contracts SET status = ? WHERE id = ?`) and
append one status-change row. -/
def checkOne (st : StorageState) (c : Contract) : StorageState :=
  match findContract st c.id with
  | none => st
  | some ex =>
    if ex.status != c.status then
      { contracts := st.contracts.map fun x =>
          if x.id == c.id then { x with status := c.status } else x,
        statusChanges := st.statusChanges ++ [⟨c.id, ex.status, c.status⟩] }
    else st

/-- Go `CheckAndUpdateStatusChanges` along its failure-free path. -/
def CheckAndUpdateStatusChanges (st : StorageState) (batch : List Contract) : StorageState :=
  batch.foldl checkOne st

/-- Go `GetNewContracts`: keep, in input order, the incoming contracts
whose identifier is absent from storage. -/
def GetNewContracts (st : StorageState) : List Contract → List Contract
  | [] => []
  | c :: rest =>
    if contractExists st c.id then GetNewContracts st rest
    else c :: GetNewContracts st rest

/-- The single-row query of `GetContractByID`: `sql.ErrNoRows` when no
row matches. -/
inductive SqlRowError where
  | noRows
deriving DecidableEq

/-- Go `QueryRow(...).Scan(...)` for one contract. -/
def queryContractRow (st : StorageState) (cid : String) : Except SqlRowError Contract :=
  match findContract st cid with
  | some c => Except.ok c
  | none => Except.error SqlRowError.noRows

/-- Go `GetContractByID`: `sql.ErrNoRows` is translated to `(nil, nil)`,
a found row to `(&contract, nil)`. -/
def GetContractByID (st : StorageState) (cid : String) : Except String (Option Contract) :=
  match queryContractRow st cid with
  | Except.error SqlRowError.noRows => Except.ok none
  | Except.ok c => Except.ok (some c)

/-- One `a.celdaTam2` link element of a contract detail page. -/
structure DocLink where
  href : Option String
  inRow : Bool
  docTypeCell : Option String
deriving DecidableEq

/-- Go `strings.Contains(href, "GetDocumentByIdServlet")`. -/
def isServletHref (href : String) : Bool :=
  containsList ("GetDocumentByIdServlet".data) href.data

/-- The trimmed, lower-cased document-type cell contains `pliego`. -/
def pliegoDocType (dt : String) : Bool :=
  containsList ("pliego".data) (goToLower (goTrimSpaceList dt.data))

/-- The trimmed, lower-cased document-type cell contains `anuncio`,
`licitaci√≥n` or `rectificaci√≥n` (the source's double-encoded literals). -/
def anuncioDocType (dt : String) : Bool :=
  containsList ("anuncio".data) (goToLower (goTrimSpaceList dt.data)) ||
  containsList ("licitaci√≥n".data) (goToLower (goTrimSpaceList dt.data)) ||
  containsList ("rectificaci√≥n".data) (goToLower (goTrimSpaceList dt.data))

/-- One iteration of the `doc.Find("a.celdaTam2").Each` callback: the
two result variables are assigned (overwritten) whenever the link
qualifies for their category. -/
def docLinkStep (acc : String × String) (l : DocLink) : String × String :=
  match l.href with
  | none => acc
  | some href =>
    if isServletHref href then
      if l.inRow then
        match l.docTypeCell with
        | some dt =>
          (if pliegoDocType dt then href else acc.1,
           if anuncioDocType dt then href else acc.2)
        | none => acc
      else acc
    else acc

/-- Go `ExtractDocumentLinks`: fold the callback over the page's marker
links; both results start at `""`. -/
def ExtractDocumentLinks (links : List DocLink) : String × String :=
  links.foldl docLinkStep ("", "")

/-- The `href` of a link that qualifies for the Pliego category
(classification predicate of the callback). -/
def pliegoMatchHref (l : DocLink) : Option String :=
  match l.href with
  | none => none
  | some href =>
    if isServletHref href then
      if l.inRow then
        match l.docTypeCell with
        | some dt => if pliegoDocType dt then some href else none
        | none => none
      else none
    else none

/-- The `href` of a link that qualifies for the Anuncio category. -/
def anuncioMatchHref (l : DocLink) : Option String :=
  match l.href with
  | none => none
  | some href =>
    if isServletHref href then
      if l.inRow then
        match l.docTypeCell with
        | some dt => if anuncioDocType dt then some href else none
        | none => none
      else none
    else none

/-- Apply a freshly extracted Pliego link: only a non-empty extraction
result overwrites. -/
def applyExtractedPliego (p : String) (e : Contract) : Contract :=
  if p != "" then { e with pliegoLink := p } else e

/-- Apply a freshly extracted Anuncio link: only a non-empty extraction
result overwrites. -/
def applyExtractedAnuncio (a : String) (e : Contract) : Contract :=
  if a != "" then { e with anuncioLink := a } else e

/-- The per-contract extraction step of the enhancer:
`ExtractDocumentLinksFromContract` on the contract's detail link, a
failure (`none`) keeping the record as it stands. -/
def enhanceExtract (extract : String → Option (String × String)) (e : Contract) : Contract :=
  match extract e.link with
  | none => e
  | some (p, a) => applyExtractedAnuncio a (applyExtractedPliego p e)

/-- One iteration of the `EnhanceContractsWithDocumentLinks` loop.
`lookup` models `storage.GetContractByID` (`none` = error, logged and
ignored; `some none` = no record; `some (some ex)` = stored record) and
`extract` models the navigation collaborator (`none` = per-contract
failure, skipped).  A contract without a detail link is left untouched;
a stored record with both document links short-circuits extraction; a
stored record with at least one link seeds the result before
extraction. -/
def enhanceOne (lookup : String → Option (Option Contract))
    (extract : String → Option (String × String)) (contract : Contract) : Contract :=
  if contract.link == "" then contract
  else
    match lookup contract.id with
    | some (some existing) =>
      if existing.pliegoLink != "" && existing.anuncioLink != "" then
        { contract with pliegoLink := existing.pliegoLink,
                        anuncioLink := existing.anuncioLink }
      else if existing.pliegoLink != "" || existing.anuncioLink != "" then
        enhanceExtract extract
          { contract with pliegoLink := existing.pliegoLink,
                          anuncioLink := existing.anuncioLink }
      else enhanceExtract extract contract
    | some none => enhanceExtract extract contract
    | none => enhanceExtract extract contract

/-- Go `EnhanceContractsWithDocumentLinks`: the enhanced batch, index by
index. -/
def EnhanceContractsWithDocumentLinks (lookup : String → Option (Option Contract))
    (extract : String → Option (String × String)) (contracts : List Contract) :
    List Contract :=
  contracts.map (enhanceOne lookup extract)

theorem rowFilteredResult_eq (p : Nat × List String) :
    rowFilteredResult p =
      (rowAllResult p).bind fun c => if statusAllowed c.status then some c else none := by
  unfold rowFilteredResult rowAllResult
  by_cases h1 : (p.1 == 0 && isHeaderRow p.2) = true
  · simp [h1]
  · by_cases h2 : p.2.length < 6 <;>
      simp [eq_false_of_ne_true h1, h2]

theorem filterMap_all_filter_status (l : List (Nat × List String)) :
    (l.filterMap rowAllResult).filter (fun c => statusAllowed c.status) =
      l.filterMap rowFilteredResult := by
  induction l with
  | nil => rfl
  | cons p t ih =>
    rw [List.filterMap_cons, List.filterMap_cons, rowFilteredResult_eq]
    cases hall : rowAllResult p with
    | none => simpa using ih
    | some c =>
      by_cases hs : statusAllowed c.status = true
      · simp [hs, List.filter_cons, ih]
      · simp [eq_false_of_ne_true hs, List.filter_cons, ih]


theorem rowFilteredResult_short (p : Nat × List String) (h : p.2.length < 6) :
    rowFilteredResult p = none := by
  unfold rowFilteredResult
  by_cases h1 : (p.1 == 0 && isHeaderRow p.2) = true
  · simp [h1]
  · simp [eq_false_of_ne_true h1, h]

theorem rowAllResult_short (p : Nat × List String) (h : p.2.length < 6) :
    rowAllResult p = none := by
  unfold rowAllResult
  by_cases h1 : (p.1 == 0 && isHeaderRow p.2) = true
  · simp [h1]
  · simp [eq_false_of_ne_true h1, h]

theorem filterMap_drop_short {f : Nat × List String → Option Contract}
    (hf : ∀ p, p.2.length < 6 → f p = none) (l : List (Nat × List String)) :
    l.filterMap f = (l.filter fun p => decide (6 ≤ p.2.length)).filterMap f := by
  induction l with
  | nil => rfl
  | cons p t ih =>
    by_cases h : 6 ≤ p.2.length
    · simp only [List.filter_cons, decide_eq_true h, if_pos trivial]
      rw [List.filterMap_cons, List.filterMap_cons, ih]
    · have hlt : p.2.length < 6 := Nat.lt_of_not_le h
      simp only [List.filter_cons, decide_eq_false h]
      rw [List.filterMap_cons, hf p hlt]
      simpa using ih


theorem saveContractsLoop_ok (f : SaveFailures)
    (hc : ∀ c, f.failCheck c = false) (hi : ∀ c, f.failInsert c = false)
    (hs : ∀ c, f.failChange c = false) (batch : List Contract) :
    ∀ st : StorageState, saveContractsLoop f st batch = Except.ok (SaveContracts st batch) := by
  induction batch with
  | nil => intro st; rfl
  | cons c rest ih =>
    intro st
    rw [saveContractsLoop, hc, hi, hs]
    by_cases h : (currentStatusOf st c.id != "" && currentStatusOf st c.id != c.status) = true
    · rw [if_neg (by simp), if_neg (by simp), if_pos h, if_neg (by simp), ih]
      rw [SaveContracts, SaveContracts, List.foldl_cons, saveOne, if_pos h]
    · rw [if_neg (by simp), if_neg (by simp), if_neg (by simpa using h), ih]
      rw [SaveContracts, SaveContracts, List.foldl_cons, saveOne,
        if_neg (by simpa using h)]

theorem contractExists_false_find (st : StorageState) (cid : String)
    (h : contractExists st cid = false) : findContract st cid = none := by
  unfold findContract
  rw [List.find?_eq_none]
  intro x hx hpx
  have ht : contractExists st cid = true :=
    List.any_eq_true.mpr ⟨x, hx, hpx⟩
  rw [h] at ht
  exact Bool.false_ne_true ht


theorem any_id_eq_map (l : List Contract) (cid : String) :
    (l.map fun c => c.id).any (fun s => s == cid) = l.any fun c => c.id == cid := by
  induction l with
  | nil => rfl
  | cons x t ih => rw [List.map_cons, List.any_cons, List.any_cons, ih]

theorem checkOne_ids (st : StorageState) (d : Contract) :
    (checkOne st d).contracts.map (fun c => c.id) = st.contracts.map fun c => c.id := by
  unfold checkOne
  cases hf : findContract st d.id with
  | none => rfl
  | some ex =>
    dsimp only
    by_cases hs : (ex.status != d.status) = true
    · rw [if_pos hs]
      show (st.contracts.map _).map _ = _
      rw [List.map_map]
      apply List.map_congr_left
      intro x _
      show (if (x.id == d.id) = true then
          { x with status := d.status } else x).id = x.id
      split <;> rfl
    · rw [if_neg hs]

theorem checkOne_exists (st : StorageState) (d : Contract) (cid : String) :
    contractExists (checkOne st d) cid = contractExists st cid := by
  unfold contractExists
  rw [← any_id_eq_map, ← any_id_eq_map (st.contracts), checkOne_ids]

theorem checkOne_changes_filter (st : StorageState) (d : Contract) (cid : String)
    (h : contractExists st cid = false) :
    (checkOne st d).statusChanges.filter (fun r => r.contractId == cid) =
      st.statusChanges.filter fun r => r.contractId == cid := by
  unfold checkOne
  cases hf : findContract st d.id with
  | none => rfl
  | some ex =>
    dsimp only
    by_cases hs : (ex.status != d.status) = true
    · rw [if_pos hs]
      show (st.statusChanges ++ _).filter _ = _
      rw [List.filter_append]
      have hd : d.id ≠ cid := by
        intro he
        have hmem := List.mem_of_find?_eq_some hf
        have hpx := List.find?_some hf
        have ht : contractExists st cid = true := by
          unfold contractExists
          exact List.any_eq_true.mpr ⟨ex, hmem, by rw [← he]; exact hpx⟩
        rw [h] at ht
        exact Bool.false_ne_true ht
      have hone : ([⟨d.id, ex.status, d.status⟩] :
          List StatusChangeRow).filter (fun r => r.contractId == cid) = [] := by
        simp [List.filter_cons, beq_eq_false_iff_ne.mpr hd]
      rw [hone, List.append_nil]
    · rw [if_neg hs]

theorem checkAndUpdate_ids :
    ∀ (batch : List Contract) (st : StorageState),
      (CheckAndUpdateStatusChanges st batch).contracts.map (fun c => c.id) =
        st.contracts.map fun c => c.id
  | [], _ => rfl
  | d :: rest, st => by
    rw [CheckAndUpdateStatusChanges, List.foldl_cons]
    have h1 := checkAndUpdate_ids rest (checkOne st d)
    rw [CheckAndUpdateStatusChanges] at h1
    rw [h1, checkOne_ids]

theorem checkAndUpdate_changes_filter :
    ∀ (batch : List Contract) (st : StorageState) (cid : String),
      contractExists st cid = false →
      (CheckAndUpdateStatusChanges st batch).statusChanges.filter
          (fun r => r.contractId == cid) =
        st.statusChanges.filter fun r => r.contractId == cid
  | [], _, _, _ => rfl
  | d :: rest, st, cid, h => by
    rw [CheckAndUpdateStatusChanges, List.foldl_cons]
    have h2 : contractExists (checkOne st d) cid = false := by
      rw [checkOne_exists]
      exact h
    have h1 := checkAndUpdate_changes_filter rest (checkOne st d) cid h2
    rw [CheckAndUpdateStatusChanges] at h1
    rw [h1, checkOne_changes_filter st d cid h]


theorem find?_map_invariant {α : Type} (g : α → α) (p : α → Bool)
    (hp : ∀ x, p (g x) = p x) (hfix : ∀ x, p x = true → g x = x) :
    ∀ l : List α, (l.map g).find? p = l.find? p := by
  intro l
  induction l with
  | nil => rfl
  | cons x t ih =>
    rw [List.map_cons]
    cases hx : p x with
    | false =>
      rw [List.find?_cons_of_neg _ (by rw [hp x, hx]; exact Bool.false_ne_true),
        List.find?_cons_of_neg _ (by rw [hx]; exact Bool.false_ne_true)]
      exact ih
    | true =>
      rw [List.find?_cons_of_pos _ (by rw [hp x]; exact hx),
        List.find?_cons_of_pos _ hx, hfix x hx]

theorem find?_append_single_neg {α : Type} (p : α → Bool) (d : α) (h : p d = false) :
    ∀ l : List α, (l ++ [d]).find? p = l.find? p := by
  intro l
  induction l with
  | nil =>
    rw [List.nil_append]
    rw [List.find?_cons_of_neg _ (by rw [h]; exact Bool.false_ne_true)]
  | cons x t ih =>
    rw [List.cons_append]
    cases hx : p x with
    | false =>
      rw [List.find?_cons_of_neg _ (by rw [hx]; exact Bool.false_ne_true),
        List.find?_cons_of_neg _ (by rw [hx]; exact Bool.false_ne_true)]
      exact ih
    | true =>
      rw [List.find?_cons_of_pos _ hx, List.find?_cons_of_pos _ hx]

theorem any_append_single_neg {α : Type} (p : α → Bool) (d : α) (h : p d = false)
    (l : List α) : (l ++ [d]).any p = l.any p := by
  rw [List.any_append]
  simp [List.any_cons, h]

theorem any_map_invariant {α : Type} (g : α → α) (p : α → Bool)
    (hp : ∀ x, p (g x) = p x) : ∀ l : List α, (l.map g).any p = l.any p := by
  intro l
  induction l with
  | nil => rfl
  | cons x t ih =>
    rw [List.map_cons, List.any_cons, List.any_cons, hp x, ih]

theorem upsert_find_ne (d : Contract) (l : List Contract) (cid : String)
    (h : d.id ≠ cid) :
    (upsert d l).find? (fun x => x.id == cid) = l.find? fun x => x.id == cid := by
  unfold upsert
  by_cases ha : (l.any fun x => x.id == d.id) = true
  · rw [if_pos ha]
    apply find?_map_invariant
    · intro x
      by_cases hx : (x.id == d.id) = true
      · have hxe : x.id = d.id := by simpa using hx
        rw [if_pos hx]
        show (d.id == cid) = (x.id == cid)
        rw [hxe]
      · rw [if_neg hx]
    · intro x hpx
      have hxc : x.id = cid := by simpa using hpx
      have hne : (x.id == d.id) = false := by
        refine beq_eq_false_iff_ne.mpr ?_
        rw [hxc]
        exact fun he => h he.symm
      rw [if_neg (by rw [hne]; exact Bool.false_ne_true)]
  · rw [if_neg ha]
    exact find?_append_single_neg (fun x => x.id == cid) d
      (beq_eq_false_iff_ne.mpr h) l

theorem upsert_any_ne (d : Contract) (l : List Contract) (cid : String)
    (h : d.id ≠ cid) :
    ((upsert d l).any fun x => x.id == cid) = l.any fun x => x.id == cid := by
  unfold upsert
  by_cases ha : (l.any fun x => x.id == d.id) = true
  · rw [if_pos ha]
    apply any_map_invariant
    intro x
    by_cases hx : (x.id == d.id) = true
    · have hxe : x.id = d.id := by simpa using hx
      rw [if_pos hx]
      show (d.id == cid) = (x.id == cid)
      rw [hxe]
    · rw [if_neg hx]
  · rw [if_neg ha]
    exact any_append_single_neg (fun x => x.id == cid) d
      (beq_eq_false_iff_ne.mpr h) l

theorem saveOne_contracts (st : StorageState) (d : Contract) :
    (saveOne st d).contracts = upsert d st.contracts := by
  unfold saveOne
  split <;> rfl

theorem saveOne_find_ne (st : StorageState) (d : Contract) (cid : String)
    (h : d.id ≠ cid) :
    findContract (saveOne st d) cid = findContract st cid := by
  unfold findContract
  rw [saveOne_contracts]
  exact upsert_find_ne d st.contracts cid h

theorem saveOne_exists_ne (st : StorageState) (d : Contract) (cid : String)
    (h : d.id ≠ cid) :
    contractExists (saveOne st d) cid = contractExists st cid := by
  unfold contractExists
  rw [saveOne_contracts]
  exact upsert_any_ne d st.contracts cid h

theorem saveOne_changes (st : StorageState) (d : Contract) :
    (saveOne st d).statusChanges = st.statusChanges ++
      (if (currentStatusOf st d.id != "" && currentStatusOf st d.id != d.status) = true
        then [⟨d.id, currentStatusOf st d.id, d.status⟩] else []) := by
  unfold saveOne
  split
  · rfl
  · rw [List.append_nil]

theorem saveOne_changes_filter_ne (st : StorageState) (d : Contract) (cid : String)
    (h : d.id ≠ cid) :
    (saveOne st d).statusChanges.filter (fun r => r.contractId == cid) =
      st.statusChanges.filter fun r => r.contractId == cid := by
  rw [saveOne_changes, List.filter_append]
  have hone : (if (currentStatusOf st d.id != "" && currentStatusOf st d.id != d.status) = true
        then [(⟨d.id, currentStatusOf st d.id, d.status⟩ : StatusChangeRow)]
        else []).filter (fun r => r.contractId == cid) = [] := by
    split
    · simp [List.filter_cons, beq_eq_false_iff_ne.mpr h]
    · rfl
  rw [hone, List.append_nil]

theorem saveContracts_changes_filter_ne (cid : String) :
    ∀ (batch : List Contract) (st : StorageState), (∀ d ∈ batch, d.id ≠ cid) →
      (SaveContracts st batch).statusChanges.filter (fun r => r.contractId == cid) =
        st.statusChanges.filter fun r => r.contractId == cid
  | [], _, _ => rfl
  | d :: rest, st, hb => by
    rw [SaveContracts, List.foldl_cons]
    have h1 := saveContracts_changes_filter_ne cid rest (saveOne st d)
      fun x hx => hb x (List.mem_cons_of_mem d hx)
    rw [SaveContracts] at h1
    rw [h1, saveOne_changes_filter_ne st d cid (hb d (List.mem_cons_self d rest))]


theorem getLast?_getD_cons (xs : List String) (h a : String) :
    ((h :: xs).getLast?).getD a = (xs.getLast?).getD h := by
  induction xs generalizing h with
  | nil => rfl
  | cons y ys _ =>
    rw [List.getLast?_cons_cons]
    cases hys : (y :: ys).getLast? with
    | none =>
      rw [List.getLast?_eq_none_iff] at hys
      exact absurd hys (by simp)
    | some z => rfl

theorem docLinkStep_eq (a b : String) (l : DocLink) :
    docLinkStep (a, b) l = ((pliegoMatchHref l).getD a, (anuncioMatchHref l).getD b) := by
  unfold docLinkStep pliegoMatchHref anuncioMatchHref
  cases hh : l.href with
  | none => rfl
  | some href =>
    dsimp only
    by_cases hs : isServletHref href = true
    · rw [if_pos hs, if_pos hs, if_pos hs]
      by_cases hr : l.inRow = true
      · rw [if_pos hr, if_pos hr, if_pos hr]
        cases hdt : l.docTypeCell with
        | none => rfl
        | some dt =>
          dsimp only
          by_cases hp : pliegoDocType dt = true <;>
            by_cases ha2 : anuncioDocType dt = true <;>
              simp [hp, ha2, eq_false_of_ne_true]
      · rw [if_neg hr, if_neg hr, if_neg hr]
        rfl
    · rw [if_neg hs, if_neg hs, if_neg hs]
      rfl

theorem foldl_docLinkStep (links : List DocLink) :
    ∀ a b : String, links.foldl docLinkStep (a, b) =
      (((links.filterMap pliegoMatchHref).getLast?).getD a,
       ((links.filterMap anuncioMatchHref).getLast?).getD b) := by
  induction links with
  | nil => intro a b; rfl
  | cons l rest ih =>
    intro a b
    rw [List.foldl_cons, docLinkStep_eq, ih, List.filterMap_cons, List.filterMap_cons]
    cases hp : pliegoMatchHref l <;> cases ha2 : anuncioMatchHref l <;>
      simp [getLast?_getD_cons]


theorem enhanceExtract_link_fields (extract : String → Option (String × String))
    (e : Contract) :
    (e.pliegoLink ≠ "" → (enhanceExtract extract e).pliegoLink ≠ "") ∧
    (e.anuncioLink ≠ "" → (enhanceExtract extract e).anuncioLink ≠ "") := by
  unfold enhanceExtract applyExtractedAnuncio applyExtractedPliego
  cases hx : extract e.link with
  | none => exact ⟨fun h => h, fun h => h⟩
  | some pa =>
    obtain ⟨p, a⟩ := pa
    dsimp only
    by_cases hane : (a != "") = true
    · rw [if_pos hane]
      by_cases hpne : (p != "") = true
      · rw [if_pos hpne]
        exact ⟨fun _ => by simpa using bne_iff_ne.mp hpne,
          fun _ => by simpa using bne_iff_ne.mp hane⟩
      · rw [if_neg hpne]
        exact ⟨fun h => h, fun _ => by simpa using bne_iff_ne.mp hane⟩
    · rw [if_neg hane]
      by_cases hpne : (p != "") = true
      · rw [if_pos hpne]
        exact ⟨fun _ => by simpa using bne_iff_ne.mp hpne, fun h => h⟩
      · rw [if_neg hpne]
        exact ⟨fun h => h, fun h => h⟩

theorem enhanceOne_keeps (lookup : String → Option (Option Contract))
    (extract : String → Option (String × String)) (c ex : Contract)
    (hlink : c.link ≠ "") (hex : lookup c.id = some (some ex)) :
    (ex.pliegoLink ≠ "" → (enhanceOne lookup extract c).pliegoLink ≠ "") ∧
    (ex.anuncioLink ≠ "" → (enhanceOne lookup extract c).anuncioLink ≠ "") := by
  unfold enhanceOne
  rw [if_neg (by rw [beq_eq_false_iff_ne.mpr hlink]; exact Bool.false_ne_true), hex]
  dsimp only
  by_cases hboth : (ex.pliegoLink != "" && ex.anuncioLink != "") = true
  · rw [if_pos hboth]
    exact ⟨fun h => h, fun h => h⟩
  · rw [if_neg hboth]
    by_cases hsome : (ex.pliegoLink != "" || ex.anuncioLink != "") = true
    · rw [if_pos hsome]
      have h1 := enhanceExtract_link_fields extract
        { c with pliegoLink := ex.pliegoLink, anuncioLink := ex.anuncioLink }
      exact ⟨fun h => h1.1 h, fun h => h1.2 h⟩
    · rw [if_neg hsome]
      rw [Bool.or_eq_true, not_or] at hsome
      obtain ⟨hp0, ha0⟩ := hsome
      have hp0e : ex.pliegoLink = "" := by
        by_contra hne
        exact hp0 (bne_iff_ne.mpr hne)
      have ha0e : ex.anuncioLink = "" := by
        by_contra hne
        exact ha0 (bne_iff_ne.mpr hne)
      exact ⟨fun h => absurd hp0e h, fun h => absurd ha0e h⟩

end Scraper

open Scraper in
/-- C3 (code bug): the source file's allow-list literal is the
double-encoded `"Evaluaci√≥n Previa"`, which can never case-fold-match
the portal's genuine status `"Evaluación Previa"`.  On a valid row
carrying that genuine status the filtered extraction is empty while the
unfiltered extraction holds the record — whose status satisfies the
specified allow-list — so the claimed equality (filtered = unfiltered
restricted to status in {Publicada, Evaluación Previa}) fails at this
input: the code drops a row the spec keeps. -/
theorem extract_filtered_drops_genuine_status :
    ExtractContractsFromTable
        [["10892/2024Suministro de pantallas", "Suministros", "Evaluación Previa",
          "100", "01-01-2025", "Ayuntamiento"]] = [] ∧
    (ExtractAllContractsFromTable
        [["10892/2024Suministro de pantallas", "Suministros", "Evaluación Previa",
          "100", "01-01-2025", "Ayuntamiento"]]).map (fun c => c.status) =
      ["Evaluación Previa"] ∧
    ExtractContractsFromTable
        [["10892/2024Suministro de pantallas", "Suministros", "Evaluación Previa",
          "100", "01-01-2025", "Ayuntamiento"]] ≠
      (ExtractAllContractsFromTable
          [["10892/2024Suministro de pantallas", "Suministros", "Evaluación Previa",
            "100", "01-01-2025", "Ayuntamiento"]]).filter
        (fun c => goEqualFold c.status "Publicada" ||
                  goEqualFold c.status "Evaluación Previa") :=
  ⟨by decide, by decide, by decide⟩

open Scraper in
/-- C8: a row with fewer than 6 cells contributes no record to either
result set — each per-row step yields nothing on such a row, and both
extractions are unchanged when every short row is removed from the
enumerated row list. -/
theorem short_rows_contribute_nothing (td : List (List String)) :
    (∀ i row, row.length < 6 →
        rowFilteredResult (i, row) = none ∧ rowAllResult (i, row) = none) ∧
    ExtractContractsFromTable td =
      (td.enum.filter fun p => decide (6 ≤ p.2.length)).filterMap rowFilteredResult ∧
    ExtractAllContractsFromTable td =
      (td.enum.filter fun p => decide (6 ≤ p.2.length)).filterMap rowAllResult := by
  refine ⟨fun i row h => ⟨rowFilteredResult_short (i, row) h, rowAllResult_short (i, row) h⟩,
    ?_, ?_⟩
  · exact filterMap_drop_short (fun p => rowFilteredResult_short p) td.enum
  · exact filterMap_drop_short (fun p => rowAllResult_short p) td.enum

open Scraper in
/-- C10: `GetContractByID` on an identifier absent from the contracts
table returns a `nil` contract with a `nil` error (`Except.ok none`),
not an error. -/
theorem getContractByID_absent (st : StorageState) (cid : String)
    (h : contractExists st cid = false) :
    GetContractByID st cid = Except.ok none := by
  unfold GetContractByID queryContractRow
  rw [contractExists_false_find st cid h]

open Scraper in
/-- Witness for `getContractByID_absent`: a store holding only contract
`B` reports the absent identifier `A` as `(nil, nil)`. -/
theorem getContractByID_absent_witness :
    contractExists ⟨[⟨"B", "", "", "Publicada", "", "", "", "", "", ""⟩], []⟩ "A" = false ∧
    GetContractByID ⟨[⟨"B", "", "", "Publicada", "", "", "", "", "", ""⟩], []⟩ "A" =
      Except.ok none :=
  ⟨by decide, getContractByID_absent _ _ (by decide)⟩

open Scraper in
/-- C9: `GetNewContracts` returns exactly the incoming contracts whose
identifier is absent from the contracts table, in input order, and its
selection is unchanged by any rewriting of the incoming statuses —
membership depends on identifier existence only, never on status. -/
theorem getNewContracts_spec (st : StorageState) (batch : List Contract) :
    GetNewContracts st batch = batch.filter (fun c => !contractExists st c.id) ∧
    ∀ f : Contract → String,
      GetNewContracts st (batch.map fun c => { c with status := f c }) =
        (GetNewContracts st batch).map fun c => { c with status := f c } := by
  constructor
  · induction batch with
    | nil => rfl
    | cons c rest ih =>
      rw [GetNewContracts, List.filter_cons]
      by_cases h : contractExists st c.id = true
      · rw [if_pos h, ih]
        simp [h]
      · rw [if_neg h, ih]
        simp [eq_false_of_ne_true h]
  · intro f
    induction batch with
    | nil => rfl
    | cons c rest ih =>
      rw [List.map_cons, GetNewContracts, GetNewContracts]
      by_cases h : contractExists st c.id = true
      · rw [if_pos (by simpa using h), if_pos h, ih]
      · rw [if_neg (by simpa using h), if_neg h, List.map_cons, ih]

open Scraper in
/-- C6: if `SaveContracts` reports an error — any statement of the
batch transaction failed, or the commit failed — the database state
visible after the call is exactly the state before it: the whole batch
is one atomic transaction with no partial writes. -/
theorem saveContractsTx_error_preserves (f : SaveFailures) (db : StorageState)
    (batch : List Contract) (e : String)
    (h : (SaveContractsTx f db batch).1 = Except.error e) :
    (SaveContractsTx f db batch).2 = db := by
  unfold SaveContractsTx at h ⊢
  by_cases hb : batch.isEmpty = true
  · rw [if_pos hb] at h
    exact absurd h (by simp)
  · rw [if_neg hb] at h ⊢
    cases hcl : saveContractsLoop f db batch with
    | error e2 => rfl
    | ok tx =>
      cases hcm : f.failCommit with
      | true => simp [hcm]
      | false =>
        rw [hcl, hcm] at h
        simp at h

open Scraper in
/-- Witness for `saveContractsTx_error_preserves`: a failing insert on a
one-contract batch leaves an empty database empty. -/
theorem saveContractsTx_error_preserves_witness :
    (SaveContractsTx ⟨fun _ => false, fun _ => true, fun _ => false, false⟩
        ⟨[], []⟩ [⟨"X", "", "", "Publicada", "", "", "", "", "", ""⟩]).2 =
      (⟨[], []⟩ : StorageState) :=
  saveContractsTx_error_preserves _ _ _ "failed to insert contract X" (by rfl)

open Scraper in
/-- C5: `CheckAndUpdateStatusChanges` never creates a contract row: the
stored identifiers are exactly those present before the call, and for
every incoming contract whose identifier is absent from storage no
status-change row for that identifier is recorded. -/
theorem checkAndUpdate_never_creates (st : StorageState) (batch : List Contract)
    (c : Contract) (_hmem : c ∈ batch) (habs : contractExists st c.id = false) :
    (CheckAndUpdateStatusChanges st batch).contracts.map (fun x => x.id) =
      st.contracts.map (fun x => x.id) ∧
    (CheckAndUpdateStatusChanges st batch).statusChanges.filter
        (fun r => r.contractId == c.id) =
      st.statusChanges.filter (fun r => r.contractId == c.id) :=
  ⟨checkAndUpdate_ids batch st, checkAndUpdate_changes_filter batch st c.id habs⟩

open Scraper in
/-- Witness for `checkAndUpdate_never_creates`: reconciling the unseen
contract `C` against a store holding only `B` records nothing. -/
theorem checkAndUpdate_never_creates_witness :
    (CheckAndUpdateStatusChanges ⟨[⟨"B", "", "", "Publicada", "", "", "", "", "", ""⟩], []⟩
        [⟨"C", "", "", "Adjudicada", "", "", "", "", "", ""⟩]).contracts.map (fun x => x.id) =
      (⟨[⟨"B", "", "", "Publicada", "", "", "", "", "", ""⟩], []⟩ :
        StorageState).contracts.map (fun x => x.id) ∧
    (CheckAndUpdateStatusChanges ⟨[⟨"B", "", "", "Publicada", "", "", "", "", "", ""⟩], []⟩
        [⟨"C", "", "", "Adjudicada", "", "", "", "", "", ""⟩]).statusChanges.filter
        (fun r => r.contractId == "C") =
      (⟨[⟨"B", "", "", "Publicada", "", "", "", "", "", ""⟩], []⟩ :
        StorageState).statusChanges.filter (fun r => r.contractId == "C") :=
  checkAndUpdate_never_creates _ _ ⟨"C", "", "", "Adjudicada", "", "", "", "", "", ""⟩
    (List.mem_cons_self _ _) (by decide)

open Scraper in
/-- C2 (counterexample): a contract can already be stored with a status
different from the incoming one — the stored status being the empty
string — while `SaveContracts` records no status change: the loop
detects a prior record by `currentStatus != ""`, so a stored empty
status never yields a StatusChange row.  The claim, which demands
exactly one row whenever the stored status differs, is therefore false. -/
theorem saveContracts_empty_status_counterexample :
    contractExists ⟨[⟨"X", "", "", "", "", "", "", "", "", ""⟩], []⟩ "X" = true ∧
    (findContract ⟨[⟨"X", "", "", "", "", "", "", "", "", ""⟩], []⟩ "X").map
        (fun ex => ex.status) = some "" ∧
    ("" : String) ≠ "Publicada" ∧
    (SaveContracts ⟨[⟨"X", "", "", "", "", "", "", "", "", ""⟩], []⟩
        [⟨"X", "", "", "Publicada", "", "", "", "", "", ""⟩]).statusChanges = [] := by
  exact ⟨by decide, by decide, by decide, by decide⟩

open Scraper in
/-- C2 (amended): for a batch whose identifiers are pairwise distinct,
`SaveContracts` appends no StatusChange row for a contract whose
identifier was never previously stored, and appends exactly one row —
old = previously stored status, new = incoming status — for a contract
already stored with a NON-EMPTY status different from the incoming
one. -/
theorem saveContracts_statusChange_rows :
    ∀ (batch : List Contract) (st : StorageState) (c : Contract),
      (batch.map fun x => x.id).Nodup → c ∈ batch →
      ((contractExists st c.id = false →
        (SaveContracts st batch).statusChanges.filter (fun r => r.contractId == c.id) =
          st.statusChanges.filter fun r => r.contractId == c.id) ∧
      (∀ ex : Contract, findContract st c.id = some ex → ex.status ≠ "" →
        ex.status ≠ c.status →
        (SaveContracts st batch).statusChanges.filter (fun r => r.contractId == c.id) =
          (st.statusChanges.filter fun r => r.contractId == c.id) ++
            [⟨c.id, ex.status, c.status⟩]))
  | [], _, _, _, hmem => absurd hmem (List.not_mem_nil _)
  | d :: rest, st, c, hnd, hmem => by
    rw [List.map_cons, List.nodup_cons] at hnd
    obtain ⟨hdni, hndr⟩ := hnd
    rcases List.mem_cons.mp hmem with hceq | hcr
    · subst hceq
      have hrest : ∀ x ∈ rest, x.id ≠ c.id := by
        intro x hx he
        exact hdni (he ▸ List.mem_map_of_mem (fun y => y.id) hx)
      constructor
      · intro habs
        have hfind : findContract st c.id = none := contractExists_false_find st c.id habs
        have hcur : currentStatusOf st c.id = "" := by
          unfold currentStatusOf
          rw [hfind]
        rw [SaveContracts, List.foldl_cons]
        have h1 := saveContracts_changes_filter_ne c.id rest (saveOne st c) hrest
        rw [SaveContracts] at h1
        rw [h1, saveOne_changes, hcur]
        have hcond : (("" : String) != "" && ("" : String) != c.status) = false := by simp
        rw [hcond]
        simp
      · intro ex hfind hne hnes
        have hcur : currentStatusOf st c.id = ex.status := by
          unfold currentStatusOf
          rw [hfind]
        rw [SaveContracts, List.foldl_cons]
        have h1 := saveContracts_changes_filter_ne c.id rest (saveOne st c) hrest
        rw [SaveContracts] at h1
        rw [h1, saveOne_changes, hcur]
        have hcond : (ex.status != "" && ex.status != c.status) = true := by
          rw [Bool.and_eq_true, bne_iff_ne, bne_iff_ne]
          exact ⟨hne, hnes⟩
        rw [if_pos hcond, List.filter_append]
        have hone : ([(⟨c.id, ex.status, c.status⟩ : StatusChangeRow)]).filter
            (fun r => r.contractId == c.id) = [⟨c.id, ex.status, c.status⟩] := by
          simp [List.filter_cons]
        rw [hone]
    · have hd : d.id ≠ c.id := by
        intro he
        exact hdni (he ▸ List.mem_map_of_mem (fun y => y.id) hcr)
      have ih := saveContracts_statusChange_rows rest (saveOne st d) c hndr hcr
      rw [SaveContracts, List.foldl_cons]
      have hfold : List.foldl saveOne (saveOne st d) rest = SaveContracts (saveOne st d) rest := rfl
      rw [hfold]
      constructor
      · intro habs
        have habs2 : contractExists (saveOne st d) c.id = false := by
          rw [saveOne_exists_ne st d c.id hd]
          exact habs
        rw [ih.1 habs2, saveOne_changes_filter_ne st d c.id hd]
      · intro ex hfind hne hnes
        have hfind2 : findContract (saveOne st d) c.id = some ex := by
          rw [saveOne_find_ne st d c.id hd]
          exact hfind
        rw [ih.2 ex hfind2 hne hnes, saveOne_changes_filter_ne st d c.id hd]

open Scraper in
/-- Witness for `saveContracts_statusChange_rows`: saving `A` with
status `Adjudicada` over a store holding `A` with status `Publicada`
appends exactly the row `(A, Publicada, Adjudicada)`. -/
theorem saveContracts_statusChange_rows_witness :
    (SaveContracts ⟨[⟨"A", "", "", "Publicada", "", "", "", "", "", ""⟩], []⟩
        [⟨"A", "", "", "Adjudicada", "", "", "", "", "", ""⟩]).statusChanges.filter
        (fun r => r.contractId == "A") =
      ((⟨[⟨"A", "", "", "Publicada", "", "", "", "", "", ""⟩], []⟩ :
          StorageState).statusChanges.filter fun r => r.contractId == "A") ++
        [⟨"A", "Publicada", "Adjudicada"⟩] :=
  (saveContracts_statusChange_rows
      [⟨"A", "", "", "Adjudicada", "", "", "", "", "", ""⟩]
      ⟨[⟨"A", "", "", "Publicada", "", "", "", "", "", ""⟩], []⟩
      ⟨"A", "", "", "Adjudicada", "", "", "", "", "", ""⟩
      (by decide) (List.mem_cons_self _ _)).2
    ⟨"A", "", "", "Publicada", "", "", "", "", "", ""⟩ (by decide) (by decide) (by decide)

open Scraper in
/-- C4 (counterexample): two marker links on the same detail page whose
type cell both read `Pliego` — the returned Pliego link is the SECOND
(last) matching `href`, not the first as the claim states. -/
theorem extractDocumentLinks_first_match_counterexample :
    ExtractDocumentLinks
        [⟨some "GetDocumentByIdServlet?doc=1", true, some "Pliego"⟩,
         ⟨some "GetDocumentByIdServlet?doc=2", true, some "Pliego"⟩] =
      ("GetDocumentByIdServlet?doc=2", "") ∧
    ("GetDocumentByIdServlet?doc=2" : String) ≠ "GetDocumentByIdServlet?doc=1" :=
  ⟨by decide, by decide⟩

open Scraper in
/-- C4 (amended): each qualifying link assigns its category's result
variable, so for every detail page the returned Pliego and Anuncio
links are the `href`s of the LAST matching link in document order for
the respective category (empty when no link matches). -/
theorem extractDocumentLinks_last_match (links : List DocLink) :
    ExtractDocumentLinks links =
      (((links.filterMap pliegoMatchHref).getLast?).getD "",
       ((links.filterMap anuncioMatchHref).getLast?).getD "") :=
  foldl_docLinkStep links "" ""

open Scraper in
/-- C7 (counterexample): a contract whose detail-page link is empty is
returned untouched, so its Pliego link in the enhanced batch is the
empty string even though its stored record holds a non-empty Pliego
link — the claim as stated (for every processed contract) is false. -/
theorem enhance_stored_link_counterexample :
    EnhanceContractsWithDocumentLinks
        (fun _ => some (some ⟨"A", "", "", "", "", "", "", "", "P", ""⟩))
        (fun _ => some ("", ""))
        [⟨"A", "", "", "", "", "", "", "", "", ""⟩] =
      [⟨"A", "", "", "", "", "", "", "", "", ""⟩] ∧
    (⟨"A", "", "", "", "", "", "", "", "P", ""⟩ : Contract).pliegoLink ≠ "" ∧
    (⟨"A", "", "", "", "", "", "", "", "", ""⟩ : Contract).pliegoLink = "" :=
  ⟨by decide, by decide, by decide⟩

open Scraper in
/-- C7 (amended): for every contract whose detail-page link is
non-empty and whose storage lookup returns the stored record, a
non-empty stored Pliego or Anuncio link never becomes empty in the
enhanced batch — an empty extraction result never overwrites, and
partial completions are kept. -/
theorem enhance_keeps_stored_links (lookup : String → Option (Option Contract))
    (extract : String → Option (String × String)) (contracts : List Contract)
    (i : Nat) (c ex : Contract) (hc : contracts[i]? = some c)
    (hlink : c.link ≠ "") (hex : lookup c.id = some (some ex)) :
    ∃ e : Contract,
      (EnhanceContractsWithDocumentLinks lookup extract contracts)[i]? = some e ∧
      (ex.pliegoLink ≠ "" → e.pliegoLink ≠ "") ∧
      (ex.anuncioLink ≠ "" → e.anuncioLink ≠ "") := by
  refine ⟨enhanceOne lookup extract c, ?_, (enhanceOne_keeps lookup extract c ex hlink hex).1,
    (enhanceOne_keeps lookup extract c ex hlink hex).2⟩
  rw [EnhanceContractsWithDocumentLinks, List.getElem?_map, hc]
  rfl

open Scraper in
/-- Witness for `enhance_keeps_stored_links`: a stored partial record
(Pliego `P`, no Anuncio) on a contract with detail link `L` keeps a
non-empty Pliego link through an extraction returning only an Anuncio. -/
theorem enhance_keeps_stored_links_witness :
    ∃ e : Contract,
      (EnhanceContractsWithDocumentLinks
          (fun _ => some (some ⟨"A", "", "", "", "", "", "", "", "P", ""⟩))
          (fun _ => some ("", "N"))
          [⟨"A", "", "", "", "", "", "", "L", "", ""⟩])[0]? = some e ∧
      ((⟨"A", "", "", "", "", "", "", "", "P", ""⟩ : Contract).pliegoLink ≠ "" →
        e.pliegoLink ≠ "") ∧
      ((⟨"A", "", "", "", "", "", "", "", "P", ""⟩ : Contract).anuncioLink ≠ "" →
        e.anuncioLink ≠ "") :=
  enhance_keeps_stored_links _ _ _ 0 ⟨"A", "", "", "", "", "", "", "L", "", ""⟩
    ⟨"A", "", "", "", "", "", "", "", "P", ""⟩ rfl (by decide) rfl

/-- C1: the two spec scenarios for `parseContractIDAndDescription`:
`"10892/2024Suministro de material para pantallas"` splits into
identifier `10892/2024` and description
`Suministro de material para pantallas` (first-listed pattern wins), and
`"S-02968-2025Contratación de servicio de instalación"` splits into
identifier `S-02968-2025` and description
`Contratación de servicio de instalación`. -/
theorem parse_id_description_scenarios :
    Scraper.parseContractIDAndDescription
        "10892/2024Suministro de material para pantallas" =
      ("10892/2024", "Suministro de material para pantallas") ∧
    Scraper.parseContractIDAndDescription
        "S-02968-2025Contratación de servicio de instalación" =
      ("S-02968-2025", "Contratación de servicio de instalación") := by
  constructor <;> rfl
